import Mathlib

/-!
Verification development for the RIP-style routing daemon in
src/COSC364/ai_router.py (class RIPPacket and class Router).

Byte buffers are modelled as `List Nat` with each element a byte value
(0..255).  Machine integers are `Nat`; where Python's struct.pack would
reject an out-of-range field, the encoders below take `% 256` (inert for
the in-range values the theorems quantify over).  Wall-clock times
(`time.time()`) are modelled as `Nat` timestamps.
-/

/-- RIPPacket.INFINITY : the RIP unreachable metric (16). -/
def INFINITY : Nat := 16

namespace RIPPacket

/-- Big-endian 4-byte encoding of one 32-bit field, as produced by
struct.pack for each I field of the format string. -/
def be32 (n : Nat) : List Nat :=
  [n / 16777216 % 256, n / 65536 % 256, n / 256 % 256, n % 256]

/-- Big-endian decoding of one 4-byte slice, as consumed by
struct.unpack for each I field of the format string. -/
def be32dec : List Nat → Nat
  | [a, b, c, d] => ((a * 256 + b) * 256 + c) * 256 + d
  | _ => 0

/-- RIPPacket.create_header: struct.pack BBH of
(command, version, router_id), router_id big-endian over two bytes. -/
def create_header (routerId : Nat) (command : Nat := 2) (version : Nat := 2) :
    List Nat :=
  [command % 256, version % 256, routerId / 256 % 256, routerId % 256]

/-- RIPPacket.create_rte: struct.pack 12xII — twelve zero pad bytes,
then dest_id and metric, each 4 bytes big-endian. -/
def create_rte (destId metric : Nat) : List Nat :=
  [0, 0, 0, 0, 0, 0, 0, 0, 0, 0, 0, 0] ++ be32 destId ++ be32 metric

/-- RIPPacket.create_response: the header followed by one RTE per route,
accumulated by concatenation.  Always a single buffer. -/
def create_response (routerId : Nat) (routes : List (Nat × Nat)) : List Nat :=
  create_header routerId ++ (routes.map fun r => create_rte r.1 r.2).flatten

/-- The record loop of RIPPacket.parse: record i of the payload is bytes
[20*i, 20*i+20), i.e. repeatedly the first 20 bytes of successive
drops; dest_id is bytes 12..15 of the record, metric bytes 16..19, and a
record is kept only when `0 <= metric <= INFINITY`. -/
def parseRTEs : Nat → List Nat → List (Nat × Nat)
  | 0, _ => []
  | n + 1, payload =>
    let rte := payload.take 20
    let destId := be32dec ((rte.drop 12).take 4)
    let metric := be32dec ((rte.drop 16).take 4)
    let rest := parseRTEs n (payload.drop 20)
    if metric ≤ INFINITY then (destId, metric) :: rest else rest

/-- RIPPacket.parse: None when the buffer is shorter than the 4-byte
header or the version byte differs from 2; otherwise the header fields
plus the parsed records, where rte_count is the floor of payload
length / 20. -/
def parse (data : List Nat) : Option (Nat × Nat × Nat × List (Nat × Nat)) :=
  if data.length < 4 then none
  else
    let command := data.getD 0 0
    let version := data.getD 1 0
    let routerId := 256 * data.getD 2 0 + data.getD 3 0
    if version ≠ 2 then none
    else some (command, version, routerId, parseRTEs ((data.length - 4) / 20) (data.drop 4))

theorem be32dec_be32 (n : Nat) (h : n < 4294967296) : be32dec (be32 n) = n := by
  simp only [be32, be32dec]
  omega

theorem create_rte_length (d m : Nat) : (create_rte d m).length = 20 := rfl

theorem flatten_rte_length (routes : List (Nat × Nat)) :
    ((routes.map fun r => create_rte r.1 r.2).flatten).length = 20 * routes.length := by
  induction routes with
  | nil => rfl
  | cons r rs ih =>
    simp only [List.map_cons, List.flatten_cons, List.length_append, ih, create_rte_length,
      List.length_cons]
    ring

theorem parseRTEs_flatten (routes : List (Nat × Nat))
    (h : ∀ r ∈ routes, r.1 < 4294967296 ∧ r.2 ≤ INFINITY) :
    parseRTEs routes.length ((routes.map fun r => create_rte r.1 r.2).flatten) = routes := by
  induction routes with
  | nil => rfl
  | cons r rs ih =>
    obtain ⟨hd, hm⟩ := h r (List.mem_cons_self r rs)
    have hrest : ∀ x ∈ rs, x.1 < 4294967296 ∧ x.2 ≤ INFINITY :=
      fun x hx => h x (List.mem_cons_of_mem r hx)
    have htake : (((create_rte r.1 r.2 ++ (rs.map fun x => create_rte x.1 x.2).flatten).take 20).drop 12).take 4
        = be32 r.1 := by
      simp [create_rte, be32]
    have hmet : (((create_rte r.1 r.2 ++ (rs.map fun x => create_rte x.1 x.2).flatten).take 20).drop 16).take 4
        = be32 r.2 := by
      simp [create_rte, be32]
    have hdrop : (create_rte r.1 r.2 ++ (rs.map fun x => create_rte x.1 x.2).flatten).drop 20
        = (rs.map fun x => create_rte x.1 x.2).flatten := by
      simp [create_rte, be32]
    have hmlt : r.2 < 4294967296 := lt_of_le_of_lt hm (by norm_num [INFINITY])
    simp only [List.length_cons, List.map_cons, List.flatten_cons, parseRTEs, htake, hmet,
      hdrop, be32dec_be32 r.1 hd, be32dec_be32 r.2 hmlt, ih hrest, if_pos hm]

theorem create_response_length (rid : Nat) (routes : List (Nat × Nat)) :
    (create_response rid routes).length = 4 + 20 * routes.length := by
  simp only [create_response, List.length_append, flatten_rte_length, create_header,
    List.length_cons, List.length_nil]

/-- Round trip for an arbitrary command byte: parsing a header with
command `cmd`, version 2 and sender `rid` followed by the RTEs of
`routes` succeeds and returns every field and every route unchanged. -/
theorem parse_header_rtes (cmd rid : Nat) (routes : List (Nat × Nat))
    (hc : cmd < 256) (hr : rid < 65536)
    (hv : ∀ r ∈ routes, r.1 < 4294967296 ∧ r.2 ≤ INFINITY) :
    parse (create_header rid cmd ++ (routes.map fun r => create_rte r.1 r.2).flatten)
      = some (cmd, 2, rid, routes) := by
  have hlen : (create_header rid cmd ++ (routes.map fun r => create_rte r.1 r.2).flatten).length
      = 4 + 20 * routes.length := by
    simp only [List.length_append, flatten_rte_length, create_header, List.length_cons,
      List.length_nil]
  have hmodc : cmd % 256 = cmd := Nat.mod_eq_of_lt hc
  simp only [parse, hlen]
  rw [if_neg (by omega)]
  simp only [create_header, hmodc, List.cons_append, List.nil_append]
  rw [if_neg (by norm_num)]
  have hridval : 256 * (rid / 256 % 256) + rid % 256 = rid := by omega
  have hcount : (4 + 20 * routes.length - 4) / 20 = routes.length := by omega
  simp only [List.getD, List.drop, hcount]
  norm_num [hridval, parseRTEs_flatten routes hv]

end RIPPacket

/-!
The Router class of src/COSC364/ai_router.py.

The routing table `self.routes` is a dict mapping dest_id to the tuple
(next_hop_id, metric, timestamp, garbage_flag); it is modelled as a
function from destination ids to `Option Entry`.  The configured
`self.outputs` list holds (port, metric, router_id) triples.  Print
statements and socket sends carry no table state and are omitted.
-/

/-- One routing-table value: the (next_hop_id, metric, timestamp,
garbage_flag) tuple stored in self.routes. -/
structure Entry where
  nextHop : Nat
  metric : Nat
  timestamp : Nat
  garbage : Bool
  deriving DecidableEq

/-- The routing table self.routes, as a map from dest_id to its entry. -/
abbrev Table := Nat → Option Entry

namespace Router

/-- Assignment self.routes[dest_id] = value on the table map. -/
def upd (T : Table) (d : Nat) (v : Option Entry) : Table :=
  fun x => if x = d then v else T x

/-- One iteration of the route loop of Router.process_update for the
advertised pair `r = (dest_id, metric)`: skip own id, compute
new_metric = min(base_metric + metric, INFINITY), then the same-neighbor /
better-route / new-route cases, threading the table_modified flag. -/
def stepU (selfId srcId base now : Nat) (st : Table × Bool) (r : Nat × Nat) :
    Table × Bool :=
  if r.1 = selfId then st
  else
    let newMetric := min (base + r.2) INFINITY
    match st.1 r.1 with
    | some e =>
      if e.nextHop = srcId then
        if newMetric ≠ e.metric then
          if INFINITY ≤ newMetric ∧ e.metric < INFINITY then
            (upd st.1 r.1 (some ⟨srcId, INFINITY, now, true⟩), true)
          else
            (upd st.1 r.1 (some ⟨srcId, newMetric, now, e.garbage⟩), true)
        else
          (upd st.1 r.1 (some ⟨srcId, e.metric, now, e.garbage⟩), st.2)
      else if newMetric < e.metric then
        (upd st.1 r.1 (some ⟨srcId, newMetric, now, false⟩), true)
      else st
    | none =>
      if newMetric < INFINITY then
        (upd st.1 r.1 (some ⟨srcId, newMetric, now, false⟩), true)
      else st

/-- Router.process_update: look up the first configured output whose
router_id equals the sender; if none, ignore the update and report no
modification; otherwise run the route loop over the advertised routes.
Returns the new table and the table_modified flag. -/
def process_update (selfId : Nat) (outputs : List (Nat × Nat × Nat)) (now srcId : Nat)
    (routes : List (Nat × Nat)) (T : Table) : Table × Bool :=
  match outputs.find? (fun o => o.2.2 == srcId) with
  | none => (T, false)
  | some o => routes.foldl (stepU selfId srcId o.2.1 now) (T, false)

/-- Router.check_timeouts.  The Python loop visits each key once, skips
the router's own id, and reads and writes only that key, so it is stated
pointwise: a garbage entry is deleted when now - timestamp exceeds the
garbage-collection timeout, a live entry is condemned (metric INFINITY,
garbage set, timestamp reset to now) when now - timestamp exceeds the
route timeout.  The table_modified flag is not modelled here. -/
def check_timeouts (selfId routeTimeout gcTimeout now : Nat) (T : Table) : Table :=
  fun d =>
    if d = selfId then T d
    else
      match T d with
      | none => none
      | some e =>
        if e.garbage then
          if gcTimeout < now - e.timestamp then none else some e
        else
          if routeTimeout < now - e.timestamp then some ⟨e.nextHop, INFINITY, now, true⟩
          else some e

/-- The routes_to_send list that Router.send_updates builds for one
neighbor from the items of self.routes: a route whose next hop is this
neighbor is poisoned to INFINITY, every other route keeps its metric. -/
def routes_to_send (neighborId : Nat) (items : List (Nat × Entry)) : List (Nat × Nat) :=
  items.map fun it => if it.2.nextHop = neighborId then (it.1, INFINITY) else (it.1, it.2.metric)

/-- The receive path of Router.run for one datagram: parse it, and only
when parsing succeeded and the command is COMMAND_RESPONSE (2) hand the
routes to process_update; otherwise the table is untouched. -/
def handle_packet (selfId : Nat) (outputs : List (Nat × Nat × Nat)) (now : Nat)
    (T : Table) (data : List Nat) : Table × Bool :=
  match RIPPacket.parse data with
  | some (command, _, rid, routes) =>
    if command = 2 then process_update selfId outputs now rid routes T else (T, false)
  | none => (T, false)

/-- One event the router loop can apply to the table: an incoming update
or a timeout sweep. -/
inductive Op where
  | update (now srcId : Nat) (routes : List (Nat × Nat))
  | sweep (now : Nat)

/-- Apply one loop event to the table. -/
def applyOp (selfId : Nat) (outputs : List (Nat × Nat × Nat)) (routeTimeout gcTimeout : Nat)
    (T : Table) : Op → Table
  | .update now srcId routes => (process_update selfId outputs now srcId routes T).1
  | .sweep now => check_timeouts selfId routeTimeout gcTimeout now T

/-- Apply a whole sequence of loop events. -/
def runOps (selfId : Nat) (outputs : List (Nat × Nat × Nat)) (routeTimeout gcTimeout : Nat)
    (T : Table) (ops : List Op) : Table :=
  ops.foldl (applyOp selfId outputs routeTimeout gcTimeout) T

theorem upd_self (T : Table) (d : Nat) : upd T d (T d) = T :=
  funext fun x => by by_cases h : x = d <;> simp [upd, h]

theorem upd_eq (T : Table) (d : Nat) (v : Option Entry) : upd T d v d = v := by
  simp [upd]

theorem upd_ne (T : Table) (d : Nat) (v : Option Entry) (x : Nat) (h : x ≠ d) :
    upd T d v x = T x := by
  simp [upd, h]

/-- The value stepU writes at its own key, as a function of the previous
value at that key alone. -/
def keyStep (selfId srcId base now d m : Nat) (v : Option Entry) : Option Entry :=
  if d = selfId then v
  else
    let newMetric := min (base + m) INFINITY
    match v with
    | some e =>
      if e.nextHop = srcId then
        if newMetric ≠ e.metric then
          if INFINITY ≤ newMetric ∧ e.metric < INFINITY then some ⟨srcId, INFINITY, now, true⟩
          else some ⟨srcId, newMetric, now, e.garbage⟩
        else some ⟨srcId, e.metric, now, e.garbage⟩
      else if newMetric < e.metric then some ⟨srcId, newMetric, now, false⟩
      else some e
    | none =>
      if newMetric < INFINITY then some ⟨srcId, newMetric, now, false⟩
      else none

/-- Whether stepU sets the table_modified flag for this advertised pair,
again as a function of the previous value at the key alone. -/
def keyMod (selfId srcId base d m : Nat) (v : Option Entry) : Bool :=
  if d = selfId then false
  else
    let newMetric := min (base + m) INFINITY
    match v with
    | some e =>
      if e.nextHop = srcId then decide (newMetric ≠ e.metric)
      else decide (newMetric < e.metric)
    | none => decide (newMetric < INFINITY)

theorem stepU_fst (selfId srcId base now : Nat) (st : Table × Bool) (r : Nat × Nat) :
    (stepU selfId srcId base now st r).1
      = upd st.1 r.1 (keyStep selfId srcId base now r.1 r.2 (st.1 r.1)) := by
  unfold stepU keyStep
  by_cases hself : r.1 = selfId
  · simp only [if_pos hself, upd_self]
  · simp only [if_neg hself]
    cases hv : st.1 r.1 with
    | none =>
      by_cases hnm : min (base + r.2) INFINITY < INFINITY
      · simp [hnm]
      · simp only [hnm, if_neg, if_false]
        rw [← hv, upd_self]
    | some e =>
      by_cases h1 : e.nextHop = srcId
      · by_cases h2 : min (base + r.2) INFINITY ≠ e.metric
        · by_cases h3 : INFINITY ≤ base + r.2 ∧ e.metric < INFINITY
          · simp [h1, h2, h3, Nat.ne_of_gt h3.2]
          · simp [h1, h2, h3]
        · simp [h1, h2]
      · by_cases h2 : min (base + r.2) INFINITY < e.metric
        · simp [h1, h2]
        · simp only [h1, if_false, h2, if_neg, if_true]
          rw [← hv, upd_self]

theorem stepU_snd (selfId srcId base now : Nat) (st : Table × Bool) (r : Nat × Nat) :
    (stepU selfId srcId base now st r).2
      = (st.2 || keyMod selfId srcId base r.1 r.2 (st.1 r.1)) := by
  unfold stepU keyMod
  by_cases hself : r.1 = selfId
  · simp [if_pos hself]
  · simp only [if_neg hself]
    cases hv : st.1 r.1 with
    | none =>
      by_cases hnm : min (base + r.2) INFINITY < INFINITY
      · simp [hnm]
      · simp [hnm]
    | some e =>
      by_cases h1 : e.nextHop = srcId
      · by_cases h2 : min (base + r.2) INFINITY ≠ e.metric
        · by_cases h3 : INFINITY ≤ base + r.2 ∧ e.metric < INFINITY
          · simp [h1, h2, h3, Nat.ne_of_gt h3.2]
          · simp [h1, h2, h3]
        · simp [h1, h2]
      · by_cases h2 : min (base + r.2) INFINITY < e.metric
        · simp [h1, h2]
        · simp [h1, h2]

theorem any_congr_mem {α : Type} (l : List α) (f g : α → Bool)
    (h : ∀ x ∈ l, f x = g x) : l.any f = l.any g := by
  induction l with
  | nil => rfl
  | cons a as ih =>
    simp only [List.any_cons, h a (List.mem_cons_self a as),
      ih (fun x hx => h x (List.mem_cons_of_mem a hx))]

theorem foldl_stepU_not_mem (selfId srcId base now d : Nat) :
    ∀ (routes : List (Nat × Nat)) (st : Table × Bool), d ∉ routes.map Prod.fst →
      (routes.foldl (stepU selfId srcId base now) st).1 d = st.1 d := by
  intro routes
  induction routes with
  | nil => intro st _; rfl
  | cons r rs ih =>
    intro st hd
    simp only [List.map_cons, List.mem_cons, not_or] at hd
    rw [List.foldl_cons, ih _ hd.2, stepU_fst, upd_ne _ _ _ _ hd.1]

theorem foldl_stepU_lookup (selfId srcId base now d : Nat) :
    ∀ (routes : List (Nat × Nat)) (st : Table × Bool), (routes.map Prod.fst).Nodup →
      (routes.foldl (stepU selfId srcId base now) st).1 d
        = match routes.lookup d with
          | some m => keyStep selfId srcId base now d m (st.1 d)
          | none => st.1 d := by
  intro routes
  induction routes with
  | nil => intro st _; rfl
  | cons r rs ih =>
    intro st hnd
    rcases r with ⟨d0, m0⟩
    simp only [List.map_cons, List.nodup_cons] at hnd
    obtain ⟨hr, hrs⟩ := hnd
    rw [List.foldl_cons]
    by_cases hdr : d = d0
    · subst hdr
      rw [foldl_stepU_not_mem selfId srcId base now d rs _ hr, stepU_fst, upd_eq]
      simp [List.lookup]
    · rw [ih _ hrs]
      have hst : (stepU selfId srcId base now st (d0, m0)).1 d = st.1 d := by
        rw [stepU_fst, upd_ne _ _ _ _ hdr]
      have hbeq : (d == d0) = false := by simp [hdr]
      cases hl : rs.lookup d <;> simp [List.lookup, hbeq, hl, hst]

theorem foldl_stepU_flag (selfId srcId base now : Nat) :
    ∀ (routes : List (Nat × Nat)) (st : Table × Bool), (routes.map Prod.fst).Nodup →
      (routes.foldl (stepU selfId srcId base now) st).2
        = (st.2 || routes.any fun r => keyMod selfId srcId base r.1 r.2 (st.1 r.1)) := by
  intro routes
  induction routes with
  | nil => intro st _; simp
  | cons r rs ih =>
    intro st hnd
    rcases r with ⟨d0, m0⟩
    simp only [List.map_cons, List.nodup_cons] at hnd
    obtain ⟨hr, hrs⟩ := hnd
    rw [List.foldl_cons, ih _ hrs, stepU_snd]
    have hsame : ∀ x ∈ rs,
        keyMod selfId srcId base x.1 x.2 ((stepU selfId srcId base now st (d0, m0)).1 x.1)
          = keyMod selfId srcId base x.1 x.2 (st.1 x.1) := by
      intro x hx
      have hxne : x.1 ≠ d0 := by
        intro hEq
        exact hr (hEq ▸ List.mem_map_of_mem Prod.fst hx)
      rw [stepU_fst, upd_ne _ _ _ _ hxne]
    rw [any_congr_mem _ _ _ hsame]
    simp [List.any_cons, Bool.or_assoc]

theorem lookup_eq_of_mem (d m : Nat) :
    ∀ routes : List (Nat × Nat), (routes.map Prod.fst).Nodup → (d, m) ∈ routes →
      routes.lookup d = some m := by
  intro routes
  induction routes with
  | nil => intro _ h; cases h
  | cons r rs ih =>
    intro hnd hm
    rcases r with ⟨d0, m0⟩
    simp only [List.map_cons, List.nodup_cons] at hnd
    rcases List.mem_cons.mp hm with h | h
    · injection h with h1 h2
      subst h1; subst h2
      simp [List.lookup]
    · have hne : d ≠ d0 := by
        intro hEq
        exact hnd.1 (hEq ▸ List.mem_map_of_mem Prod.fst h)
      simp only [List.lookup]
      split
      next heq => exact absurd (by simpa using heq) hne
      next => exact ih hnd.2 h

/-- The count-to-infinity cap of the spec: every stored metric is at
most INFINITY (non-negativity is inherent to the Nat model). -/
def MetricBounded (T : Table) : Prop := ∀ d e, T d = some e → e.metric ≤ INFINITY

theorem keyStep_bounded (selfId srcId base now d m : Nat) (v : Option Entry)
    (h : ∀ e, v = some e → e.metric ≤ INFINITY) :
    ∀ e, keyStep selfId srcId base now d m v = some e → e.metric ≤ INFINITY := by
  intro e he
  cases v with
  | none =>
    simp only [keyStep] at he
    split_ifs at he
    all_goals
      first
      | exact Option.noConfusion he
      | exact h e he
      | (obtain rfl := Option.some.inj he; exact min_le_right _ _)
  | some e0 =>
    have h0 := h e0 rfl
    simp only [keyStep] at he
    split_ifs at he
    all_goals
      first
      | exact h e he
      | (obtain rfl := Option.some.inj he; exact le_refl _)
      | (obtain rfl := Option.some.inj he; exact min_le_right _ _)
      | (obtain rfl := Option.some.inj he; exact h0)

theorem stepU_bounded (selfId srcId base now : Nat) (st : Table × Bool) (r : Nat × Nat)
    (h : MetricBounded st.1) : MetricBounded (stepU selfId srcId base now st r).1 := by
  intro d e hd
  rw [stepU_fst] at hd
  by_cases hx : d = r.1
  · subst hx
    rw [upd_eq] at hd
    exact keyStep_bounded selfId srcId base now r.1 r.2 (st.1 r.1) (fun e0 he0 => h r.1 e0 he0) e hd
  · rw [upd_ne _ _ _ _ hx] at hd
    exact h d e hd

theorem foldl_stepU_bounded (selfId srcId base now : Nat) :
    ∀ (routes : List (Nat × Nat)) (st : Table × Bool), MetricBounded st.1 →
      MetricBounded ((routes.foldl (stepU selfId srcId base now) st).1) := by
  intro routes
  induction routes with
  | nil => intro st h; exact h
  | cons r rs ih =>
    intro st h
    rw [List.foldl_cons]
    exact ih _ (stepU_bounded selfId srcId base now st r h)

theorem process_update_bounded (selfId : Nat) (outputs : List (Nat × Nat × Nat))
    (now srcId : Nat) (routes : List (Nat × Nat)) (T : Table) (h : MetricBounded T) :
    MetricBounded (process_update selfId outputs now srcId routes T).1 := by
  unfold process_update
  cases hf : outputs.find? (fun o => o.2.2 == srcId) with
  | none => exact h
  | some o => exact foldl_stepU_bounded selfId srcId o.2.1 now routes (T, false) h

theorem check_timeouts_bounded (selfId routeTimeout gcTimeout now : Nat) (T : Table)
    (h : MetricBounded T) :
    MetricBounded (check_timeouts selfId routeTimeout gcTimeout now T) := by
  intro d e hd
  unfold check_timeouts at hd
  split_ifs at hd
  all_goals
    first
    | exact h d e hd
    | (revert hd
       cases hv : T d with
       | none => intro hd; exact Option.noConfusion hd
       | some e0 =>
         intro hd
         simp only at hd
         split_ifs at hd
         all_goals
           first
           | exact Option.noConfusion hd
           | (obtain rfl := Option.some.inj hd; exact h d e0 hv)
           | (obtain rfl := Option.some.inj hd; exact le_refl _))

theorem runOps_bounded (selfId : Nat) (outputs : List (Nat × Nat × Nat))
    (routeTimeout gcTimeout : Nat) :
    ∀ (ops : List Op) (T : Table), MetricBounded T →
      MetricBounded (runOps selfId outputs routeTimeout gcTimeout T ops) := by
  intro ops
  induction ops with
  | nil => intro T h; exact h
  | cons op rest ih =>
    intro T h
    unfold runOps
    rw [List.foldl_cons]
    refine ih _ ?_
    cases op with
    | update now srcId routes => exact process_update_bounded selfId outputs now srcId routes T h
    | sweep now => exact check_timeouts_bounded selfId routeTimeout gcTimeout now T h

/-- A table value with the timestamp erased: what C9 compares
(destination presence, next hop, metric, garbage state). -/
def stripTime (v : Option Entry) : Option (Nat × Nat × Bool) :=
  v.map fun e => (e.nextHop, e.metric, e.garbage)

theorem keyMod_keyStep (selfId srcId base now d m : Nat) (v : Option Entry) :
    keyMod selfId srcId base d m (keyStep selfId srcId base now d m v) = false := by
  by_cases hself : d = selfId
  · simp [keyStep, keyMod, hself]
  · cases v with
    | none =>
      by_cases h1 : min (base + m) INFINITY < INFINITY <;>
        simp [keyStep, keyMod, hself, h1]
    | some e =>
      by_cases h1 : e.nextHop = srcId
      · by_cases h2 : min (base + m) INFINITY ≠ e.metric
        · by_cases h3 : INFINITY ≤ base + m ∧ e.metric < INFINITY
          · have hmin : min (base + m) INFINITY = INFINITY := by omega
            have hne : INFINITY ≠ e.metric := by omega
            simp [keyStep, keyMod, hself, h1, h2, h3, hmin, hne]
          · simp [keyStep, keyMod, hself, h1, h2, h3]
        · simp [keyStep, keyMod, hself, h1, h2]
      · by_cases h2 : min (base + m) INFINITY < e.metric
        · simp [keyStep, keyMod, hself, h1, h2]
        · simp [keyStep, keyMod, hself, h1, h2]

theorem keyStep_keyStep (selfId srcId base now1 now2 d m : Nat) (v : Option Entry) :
    stripTime (keyStep selfId srcId base now2 d m (keyStep selfId srcId base now1 d m v))
      = stripTime (keyStep selfId srcId base now1 d m v) := by
  by_cases hself : d = selfId
  · simp [keyStep, hself]
  · cases v with
    | none =>
      by_cases h1 : min (base + m) INFINITY < INFINITY <;>
        simp [keyStep, stripTime, hself, h1]
    | some e =>
      by_cases h1 : e.nextHop = srcId
      · by_cases h2 : min (base + m) INFINITY ≠ e.metric
        · by_cases h3 : INFINITY ≤ base + m ∧ e.metric < INFINITY
          · have hmin : min (base + m) INFINITY = INFINITY := by omega
            have hne : INFINITY ≠ e.metric := by omega
            simp [keyStep, stripTime, hself, h1, h2, h3, hmin, hne]
          · simp [keyStep, stripTime, hself, h1, h2, h3]
        · simp [keyStep, stripTime, hself, h1, h2]
      · by_cases h2 : min (base + m) INFINITY < e.metric
        · simp [keyStep, stripTime, hself, h1, h2]
        · simp [keyStep, stripTime, hself, h1, h2]

end Router

/-!
The Router class of "src/COSC364/Reverse Engineer/Commentary/1Server.py"
(the second implementation variant).  Its RoutingTableEntry record and
its packet codec live in forwarding_table.py and packets.py, which are
not under src/; the record below therefore carries exactly the fields
1Server.py reads and writes, with init_timeout and init_garbage modelled
from the spec as (re)setting the corresponding timestamp to the current
time.  resolve_update itself is translated from the in-src 1Server.py
source (lines 84-143), after the decode_packet call.
-/

/-- Modelled from the spec: the RoutingTableEntry record of the missing
forwarding_table.py — destination id, next hop, metric, the changed and
garbage flags, and the last-refresh and garbage timestamps that drive
the timeout windows (spec section 3). -/
structure REntry where
  dst_id : Nat
  next_hop : Nat
  metric : Nat
  changed_flag : Bool
  garbage_flag : Bool
  timeout : Nat
  garbage_time : Nat
  deriving DecidableEq

/-- One configured OutputInterface of 1Server.py: peer port, link cost,
peer router id. -/
structure OutputInterface where
  peer_port_no : Nat
  link_cost : Nat
  peer_id : Nat

/-- 1Server.py's routing table self.routing_table: dst_id to entry. -/
abbrev RTable := Nat → Option REntry

namespace Server

/-- Assignment self.routing_table[dst_id] = value on the table map. -/
def updR (T : RTable) (d : Nat) (v : Option REntry) : RTable :=
  fun x => if x = d then v else T x

/-- One iteration of the entry loop of Router.resolve_update in
1Server.py: entries about the router itself are skipped; the inner
output loop adds the link cost (capped at INFINITY) once per output
whose peer_id equals the sender — when no output matches, the metric is
left as advertised; then CASE 1 (new destination), CASE 2 (garbage
replacement), CASE 3 (equal cost), CASE 4 (same-source change or better
route).  The pair's Bool is self.triggered_update_call.  The
half-timeout comparison time.time() >= timeout + timeout_time / 2 is
stated fraction-free as 2 * now >= 2 * timeout + timeout_time. -/
def rstep (selfId srcId timeoutTime now : Nat) (outputs : List OutputInterface)
    (st : RTable × Bool) (entry0 : REntry) : RTable × Bool :=
  if entry0.dst_id ≠ selfId then
    let m1 := outputs.foldl
      (fun m o => if o.peer_id = srcId then min (m + o.link_cost) INFINITY else m)
      entry0.metric
    let entry := { entry0 with metric := m1 }
    match st.1 entry.dst_id with
    | none =>
      if entry.metric ≠ INFINITY then
        (updR st.1 entry.dst_id (some { entry with changed_flag := true, timeout := now }), st.2)
      else st
    | some cur =>
      if cur.garbage_flag = true ∧ entry.metric < INFINITY then
        (updR st.1 entry.dst_id (some { entry with changed_flag := true, timeout := now }), st.2)
      else if entry.metric = cur.metric then
        if entry.next_hop = cur.next_hop then
          (updR st.1 entry.dst_id (some { cur with timeout := now }), st.2)
        else if 2 * cur.timeout + timeoutTime ≤ 2 * now then
          (updR st.1 entry.dst_id (some { entry with changed_flag := true, timeout := now }), st.2)
        else st
      else if (cur.next_hop = srcId ∧ entry.metric ≠ cur.metric) ∨ entry.metric < cur.metric then
        if entry.metric = INFINITY then
          (updR st.1 entry.dst_id
            (some { entry with changed_flag := true, timeout := now, garbage_flag := true, garbage_time := now }), true)
        else
          (updR st.1 entry.dst_id (some { entry with changed_flag := true, timeout := now }), st.2)
      else st
  else st

/-- Router.resolve_update of 1Server.py, after decode_packet has yielded
the sender id and the entry list: the entry loop folded over the table
and the triggered_update_call flag.  Note there is no check that the
sender matches a configured output. -/
def resolve_update (selfId srcId timeoutTime now : Nat) (outputs : List OutputInterface)
    (entries : List REntry) (st : RTable × Bool) : RTable × Bool :=
  entries.foldl (rstep selfId srcId timeoutTime now outputs) st

theorem foldl_cost_no_match (srcId m0 : Nat) (outputs : List OutputInterface)
    (h : ∀ o ∈ outputs, o.peer_id ≠ srcId) :
    outputs.foldl (fun m o => if o.peer_id = srcId then min (m + o.link_cost) INFINITY else m) m0
      = m0 := by
  induction outputs generalizing m0 with
  | nil => rfl
  | cons o os ih =>
    rw [List.foldl_cons, if_neg (h o (List.mem_cons_self o os))]
    exact ih m0 (fun x hx => h x (List.mem_cons_of_mem o hx))

end Server

/-!
Claim theorems.  Each claim of the specification is settled by exactly
one theorem below (plus a closed witness or counterexample where
required).
-/

/-- Claim C9 (amended): provided no destination id occurs twice in the
advertised list, applying the same update (same source neighbor, same
advertised entries, same link cost) a second time immediately after the
first reports no modification and changes no entry's presence, next hop,
metric, or garbage state (timestamps aside). -/
theorem claim_C9 (selfId srcId now1 now2 : Nat) (outputs : List (Nat × Nat × Nat))
    (routes : List (Nat × Nat)) (T : Table)
    (hnd : (routes.map Prod.fst).Nodup) :
    (Router.process_update selfId outputs now2 srcId routes
        (Router.process_update selfId outputs now1 srcId routes T).1).2 = false ∧
    ∀ d, Router.stripTime ((Router.process_update selfId outputs now2 srcId routes
        (Router.process_update selfId outputs now1 srcId routes T).1).1 d)
      = Router.stripTime ((Router.process_update selfId outputs now1 srcId routes T).1 d) := by
  unfold Router.process_update
  cases hf : outputs.find? (fun o => o.2.2 == srcId) with
  | none => exact ⟨rfl, fun d => rfl⟩
  | some o =>
    constructor
    · rw [Router.foldl_stepU_flag selfId srcId o.2.1 now2 routes _ hnd]
      simp only [Bool.false_or]
      refine List.any_eq_false.mpr ?_
      intro r hr
      have hmem : (r.1, r.2) ∈ routes := by simpa using hr
      have hl : routes.lookup r.1 = some r.2 :=
        Router.lookup_eq_of_mem r.1 r.2 routes hnd hmem
      have hT1r : (routes.foldl (Router.stepU selfId srcId o.2.1 now1) (T, false)).1 r.1
          = Router.keyStep selfId srcId o.2.1 now1 r.1 r.2 (T r.1) := by
        rw [Router.foldl_stepU_lookup selfId srcId o.2.1 now1 r.1 routes _ hnd, hl]
      simp [hT1r, Router.keyMod_keyStep]
    · intro d
      rw [Router.foldl_stepU_lookup selfId srcId o.2.1 now2 d routes _ hnd]
      cases hl : routes.lookup d with
      | none => rfl
      | some m =>
        have hT1d : (routes.foldl (Router.stepU selfId srcId o.2.1 now1) (T, false)).1 d
            = Router.keyStep selfId srcId o.2.1 now1 d m (T d) := by
          rw [Router.foldl_stepU_lookup selfId srcId o.2.1 now1 d routes _ hnd, hl]
        rw [hT1d, Router.keyStep_keyStep]

/-- Claim C9 counterexample: with the advertised list [(3, 15), (3, 0)]
(destination 3 listed twice, as a decoded packet may), the second
application of the identical update flips entry 3's garbage flag from
false to true and reports the table as modified again, so process_update
with identical inputs is not idempotent as claimed. -/
theorem claim_C9_cex :
    ((Router.process_update 1 [(5000, 1, 2)] 10 2 [(3, 15), (3, 0)]
        (fun _ => none)).1 3 = some ⟨2, 1, 10, false⟩) ∧
    ((Router.process_update 1 [(5000, 1, 2)] 20 2 [(3, 15), (3, 0)]
        (Router.process_update 1 [(5000, 1, 2)] 10 2 [(3, 15), (3, 0)]
          (fun _ => none)).1).1 3 = some ⟨2, 1, 20, true⟩) ∧
    ((Router.process_update 1 [(5000, 1, 2)] 20 2 [(3, 15), (3, 0)]
        (Router.process_update 1 [(5000, 1, 2)] 10 2 [(3, 15), (3, 0)]
          (fun _ => none)).1).2 = true) := by
  refine ⟨?_, ?_, ?_⟩ <;> rfl

theorem claim_C9_witness :
    (([((3 : Nat), (0 : Nat))].map Prod.fst).Nodup) ∧
    ((Router.process_update 1 [(5000, 1, 2)] 20 2 [(3, 0)]
        (Router.process_update 1 [(5000, 1, 2)] 10 2 [(3, 0)] (fun _ => none)).1).2 = false) ∧
    (Router.stripTime ((Router.process_update 1 [(5000, 1, 2)] 20 2 [(3, 0)]
        (Router.process_update 1 [(5000, 1, 2)] 10 2 [(3, 0)] (fun _ => none)).1).1 3)
      = Router.stripTime ((Router.process_update 1 [(5000, 1, 2)] 10 2 [(3, 0)]
        (fun _ => none)).1 3)) := by
  have h := claim_C9 1 2 10 20 [(5000, 1, 2)] [(3, 0)] (fun _ => none) (by decide)
  exact ⟨by decide, h.1, h.2 3⟩

/-- Claim C1: for every sender id representable in the 2-byte header
field and every entry list whose dest ids fit the 4-byte record field
and whose metrics lie in [0, INFINITY], parsing the packet produced by
RIPPacket.create_response yields exactly the original sender id and the
original entry list, in order, with no entry dropped, altered or added
(create_response always emits a single packet, so there is nothing to
reassemble). -/
theorem claim_C1 (rid : Nat) (routes : List (Nat × Nat)) (hr : rid < 65536)
    (hv : ∀ r ∈ routes, r.1 < 4294967296 ∧ r.2 ≤ INFINITY) :
    RIPPacket.parse (RIPPacket.create_response rid routes) = some (2, 2, rid, routes) :=
  RIPPacket.parse_header_rtes 2 rid routes (by norm_num) hr hv

theorem claim_C1_witness :
    RIPPacket.parse (RIPPacket.create_response 7 [(3, 5), (9, 16)])
      = some (2, 2, 7, [(3, 5), (9, 16)]) :=
  claim_C1 7 [(3, 5), (9, 16)] (by norm_num) (by decide)

/-- Claim C2: starting from any table whose metrics are all at most
INFINITY (as the initial table is: link costs 1..15 and the self route
0), any sequence of process_update calls and timeout sweeps keeps every
stored metric at most INFINITY = 16; metrics are Nat, hence never
negative. -/
theorem claim_C2 (selfId : Nat) (outputs : List (Nat × Nat × Nat))
    (routeTimeout gcTimeout : Nat) (ops : List Router.Op) (T : Table)
    (h : Router.MetricBounded T) :
    Router.MetricBounded (Router.runOps selfId outputs routeTimeout gcTimeout T ops) :=
  Router.runOps_bounded selfId outputs routeTimeout gcTimeout ops T h

theorem claim_C2_witness :
    (⟨2, 7, 5, false⟩ : Entry).metric ≤ INFINITY :=
  claim_C2 1 [(5000, 3, 2)] 180 120 [Router.Op.update 5 2 [(9, 4)]] (fun _ => none)
    (fun _ _ hd => Option.noConfusion hd) 9 ⟨2, 7, 5, false⟩ (by rfl)

/-- Claim C3: in the broadcast list built for neighbor N, the entry at
any position whose stored next hop is N is advertised with metric
INFINITY, and the entry at any position whose next hop differs from N is
advertised with its stored metric. -/
theorem claim_C3 (N : Nat) (items : List (Nat × Entry)) (i d : Nat) (e : Entry)
    (h : items[i]? = some (d, e)) :
    (e.nextHop = N → (Router.routes_to_send N items)[i]? = some (d, INFINITY)) ∧
    (e.nextHop ≠ N → (Router.routes_to_send N items)[i]? = some (d, e.metric)) := by
  constructor
  · intro hn
    simp [Router.routes_to_send, List.getElem?_map, h, hn]
  · intro hn
    simp [Router.routes_to_send, List.getElem?_map, h, hn]

theorem claim_C3_witness :
    ([((4 : Nat), (⟨2, 5, 0, false⟩ : Entry))][0]? = some (4, ⟨2, 5, 0, false⟩)) ∧
    (Router.routes_to_send 2 [(4, ⟨2, 5, 0, false⟩)])[0]? = some (4, INFINITY) :=
  ⟨by rfl, (claim_C3 2 [(4, ⟨2, 5, 0, false⟩)] 0 4 ⟨2, 5, 0, false⟩ (by rfl)).1 (by rfl)⟩

/-- Claim C4 (amended): RIPPacket.parse fails exactly when the buffer is
shorter than the 4-byte header or the version byte differs from 2.  A
payload that is not a whole multiple of the 20-byte record size is NOT
rejected: the trailing fragment is silently ignored. -/
theorem claim_C4 (data : List Nat) :
    RIPPacket.parse data = none ↔ data.length < 4 ∨ data.getD 1 0 ≠ 2 := by
  by_cases h : data.length < 4
  · simp [RIPPacket.parse, h]
  · by_cases hv : data.getD 1 0 = 2
    · simp [RIPPacket.parse, h, hv]
    · simp [RIPPacket.parse, h, hv]

/-- Claim C4 counterexample: the 5-byte buffer [2, 2, 0, 7, 9] has a
payload of 1 byte, which is not a multiple of the 20-byte record size,
yet parse accepts it (returning zero routes) instead of failing as the
claim requires. -/
theorem claim_C4_cex :
    RIPPacket.parse [2, 2, 0, 7, 9] = some (2, 2, 7, []) ∧
    ([2, 2, 0, 7, 9].length - 4) % 20 ≠ 0 :=
  ⟨rfl, by decide⟩

/-- Claim C5 (amended): for a garbage entry (metric INFINITY) and an
advertisement whose candidate metric base + m is strictly below
INFINITY, process_update replaces the entry with the candidate, reports
the table modified, and refreshes the timestamp; the garbage flag is
cleared when the advertisement comes from a neighbor other than the
entry's stored next hop, but is preserved (stays true) when it comes
from the entry's current next hop. -/
theorem claim_C5 (selfId now srcId p base nid d m : Nat)
    (outputs : List (Nat × Nat × Nat)) (T : Table) (e : Entry)
    (hfind : outputs.find? (fun o => o.2.2 == srcId) = some (p, base, nid))
    (hd : d ≠ selfId) (hT : T d = some e) (hg : e.garbage = true)
    (hm16 : e.metric = INFINITY) (hcand : base + m < INFINITY) :
    ((Router.process_update selfId outputs now srcId [(d, m)] T).2 = true) ∧
    (e.nextHop = srcId →
      (Router.process_update selfId outputs now srcId [(d, m)] T).1 d
        = some ⟨srcId, base + m, now, true⟩) ∧
    (e.nextHop ≠ srcId →
      (Router.process_update selfId outputs now srcId [(d, m)] T).1 d
        = some ⟨srcId, base + m, now, false⟩) := by
  have hmin : min (base + m) INFINITY = base + m := Nat.min_eq_left (Nat.le_of_lt hcand)
  have hne : base + m ≠ e.metric := by rw [hm16]; exact Nat.ne_of_lt hcand
  have hnle : ¬ (INFINITY ≤ base + m ∧ e.metric < INFINITY) := by
    intro hcontra
    exact absurd hcand (Nat.not_lt_of_le hcontra.1)
  have hlt : base + m < e.metric := by rw [hm16]; exact hcand
  unfold Router.process_update
  rw [hfind]
  simp only [List.foldl_cons, List.foldl_nil]
  refine ⟨?_, ?_, ?_⟩
  · rw [Router.stepU_snd]
    simp only [Bool.false_or]
    by_cases hn : e.nextHop = srcId
    · simp [Router.keyMod, hd, hT, hn, hmin, hne]
    · simp [Router.keyMod, hd, hT, hn, hmin, hlt]
  · intro hn
    rw [Router.stepU_fst, Router.upd_eq]
    simp [Router.keyStep, hd, hT, hn, hmin, hne, hnle, hg]
  · intro hn
    rw [Router.stepU_fst, Router.upd_eq]
    simp [Router.keyStep, hd, hT, hn, hmin, hlt]

/-- Claim C5 counterexample: destination 9 is in garbage state via
neighbor 2 with metric INFINITY; neighbor 2 (its current next hop)
advertises it with candidate metric 3 + 4 = 7 < INFINITY.  The entry is
replaced but its garbage flag remains true, contradicting the claim that
the flag is cleared regardless of source. -/
theorem claim_C5_cex :
    (Router.process_update 1 [(5000, 3, 2)] 5 2 [(9, 4)]
        (fun x => if x = 9 then some ⟨2, 16, 0, true⟩ else none)).1 9
      = some ⟨2, 7, 5, true⟩ := rfl

theorem claim_C5_witness :
    ((Router.process_update 1 [(5000, 3, 2)] 5 2 [(9, 4)]
        (fun x => if x = 9 then some ⟨3, 16, 0, true⟩ else none)).2 = true) ∧
    ((Router.process_update 1 [(5000, 3, 2)] 5 2 [(9, 4)]
        (fun x => if x = 9 then some ⟨3, 16, 0, true⟩ else none)).1 9
      = some ⟨2, 7, 5, false⟩) := by
  have h := claim_C5 1 5 2 5000 3 2 9 4 [(5000, 3, 2)]
    (fun x => if x = 9 then some ⟨3, 16, 0, true⟩ else none) ⟨3, 16, 0, true⟩
    (by rfl) (by decide) (by rfl) (by rfl) (by rfl) (by decide)
  exact ⟨h.1, h.2.2 (by decide)⟩

/-- Claim C6 (amended): a non-garbage entry is condemned by the next
sweep (garbage flag set, metric INFINITY, timestamp reset to the sweep
time) exactly when STRICTLY more than route_timeout has elapsed since
its last refresh, and a garbage entry is deleted by a sweep exactly when
STRICTLY more than garbage_collection_timeout has elapsed since its
garbage timestamp — in particular never before that much time has
elapsed. -/
theorem claim_C6 (selfId routeTimeout gcTimeout now d : Nat) (T : Table) (e : Entry)
    (hd : d ≠ selfId) (hT : T d = some e) :
    (e.garbage = false → routeTimeout < now - e.timestamp →
      Router.check_timeouts selfId routeTimeout gcTimeout now T d
        = some ⟨e.nextHop, INFINITY, now, true⟩) ∧
    (e.garbage = false → ¬ routeTimeout < now - e.timestamp →
      Router.check_timeouts selfId routeTimeout gcTimeout now T d = some e) ∧
    (e.garbage = true →
      (Router.check_timeouts selfId routeTimeout gcTimeout now T d = none
        ↔ gcTimeout < now - e.timestamp)) := by
  unfold Router.check_timeouts
  rw [if_neg hd, hT]
  refine ⟨?_, ?_, ?_⟩
  · intro hg ht
    simp [hg, ht]
  · intro hg ht
    simp [hg, ht]
  · intro hg
    constructor
    · intro hnone
      by_cases hgc : gcTimeout < now - e.timestamp
      · exact hgc
      · simp [hg, hgc] at hnone
    · intro hgc
      simp [hg, hgc]

/-- Claim C6 counterexample: the sweep uses strict comparisons.  Entry 3
has gone unrefreshed for exactly route_timeout = 180 yet is NOT
condemned by the sweep, and garbage entry 4 has been condemned for
exactly garbage_collection_timeout = 180 yet is NOT deleted —
contradicting the claim's "at least" thresholds on both transitions. -/
theorem claim_C6_cex :
    Router.check_timeouts 1 180 180 180
        (fun x => if x = 3 then some ⟨2, 5, 0, false⟩
          else if x = 4 then some ⟨2, 16, 0, true⟩ else none) 3
      = some ⟨2, 5, 0, false⟩ ∧
    Router.check_timeouts 1 180 180 180
        (fun x => if x = 3 then some ⟨2, 5, 0, false⟩
          else if x = 4 then some ⟨2, 16, 0, true⟩ else none) 4
      = some ⟨2, 16, 0, true⟩ :=
  ⟨rfl, rfl⟩

theorem claim_C6_witness :
    Router.check_timeouts 1 180 120 200
        (fun x => if x = 3 then some ⟨2, 5, 0, false⟩ else none) 3
      = some ⟨2, 16, 200, true⟩ :=
  (claim_C6 1 180 120 200 3 (fun x => if x = 3 then some ⟨2, 5, 0, false⟩ else none)
    ⟨2, 5, 0, false⟩ (by decide) (by rfl)).1 (by rfl) (by decide)

/-- Claim C7 counterexample: RIPPacket.create_response never splits.
With 103 entries the single returned buffer is 2064 bytes long —
exceeding the 2048-byte receive buffer the event loop uses — and still
contains every one of the 103 entries, so no splitting across multiple
packets takes place. -/
theorem claim_C7_cex :
    (RIPPacket.create_response 1 ((List.range 103).map fun i => (i + 2, 1))).length = 2064 ∧
    2048 < (RIPPacket.create_response 1 ((List.range 103).map fun i => (i + 2, 1))).length ∧
    RIPPacket.parse (RIPPacket.create_response 1 ((List.range 103).map fun i => (i + 2, 1)))
      = some (2, 2, 1, (List.range 103).map fun i => (i + 2, 1)) := by
  refine ⟨?_, ?_, ?_⟩
  · rw [RIPPacket.create_response_length]
    simp
  · rw [RIPPacket.create_response_length]
    simp
  · exact RIPPacket.parse_header_rtes 2 1 _ (by norm_num) (by norm_num) (by decide)

/-- Claim C7 (amended): create_response never splits: for every sender
id and entry list it returns exactly one buffer, of length
4 + 20 * (number of entries), in which every entry appears exactly once
and in order — even when that single buffer exceeds any datagram
limit. -/
theorem claim_C7_amended (rid : Nat) (routes : List (Nat × Nat)) (hr : rid < 65536)
    (hv : ∀ r ∈ routes, r.1 < 4294967296 ∧ r.2 ≤ INFINITY) :
    (RIPPacket.create_response rid routes).length = 4 + 20 * routes.length ∧
    RIPPacket.parse (RIPPacket.create_response rid routes) = some (2, 2, rid, routes) :=
  ⟨RIPPacket.create_response_length rid routes,
   RIPPacket.parse_header_rtes 2 rid routes (by norm_num) hr hv⟩

theorem claim_C7_amended_witness :
    (RIPPacket.create_response 3 [(8, 2)]).length = 4 + 20 * 1 ∧
    RIPPacket.parse (RIPPacket.create_response 3 [(8, 2)]) = some (2, 2, 3, [(8, 2)]) :=
  claim_C7_amended 3 [(8, 2)] (by norm_num) (by decide)

/-- Claim C8 (amended): an update whose source router id matches no
configured output is rejected by ai_router.py's process_update — the
table is returned unchanged (the very same table value, no entry
created, replaced, refreshed or re-flagged) and no modification is
reported — but NOT by 1Server.py's resolve_update, which performs no
source check: an advertised entry for a destination not in the table,
with its raw metric (no link cost is added for an unconfigured sender)
different from INFINITY, is added to the table, flagged changed and
timestamped. -/
theorem claim_C8 (selfId now srcId : Nat) (outputs : List (Nat × Nat × Nat))
    (routes : List (Nat × Nat)) (T : Table)
    (souts : List OutputInterface) (timeoutTime now2 d : Nat) (e : REntry)
    (RT : RTable) (b : Bool)
    (h : ∀ o ∈ outputs, o.2.2 ≠ srcId)
    (hs : ∀ o ∈ souts, o.peer_id ≠ srcId)
    (hd : e.dst_id = d) (hds : d ≠ selfId) (hRT : RT d = none)
    (hm : e.metric ≠ INFINITY) :
    Router.process_update selfId outputs now srcId routes T = (T, false) ∧
    (Server.resolve_update selfId srcId timeoutTime now2 souts [e] (RT, b)).1 d
      = some { e with changed_flag := true, timeout := now2 } := by
  constructor
  · have hf : outputs.find? (fun o => o.2.2 == srcId) = none := by
      rw [List.find?_eq_none]
      intro o ho
      simpa using h o ho
    simp [Router.process_update, hf]
  · have hfold : souts.foldl
        (fun m o => if o.peer_id = srcId then min (m + o.link_cost) INFINITY else m) e.metric
        = e.metric := Server.foldl_cost_no_match srcId e.metric souts hs
    have hdd : e.dst_id ≠ selfId := by rw [hd]; exact hds
    unfold Server.resolve_update
    simp only [List.foldl_cons, List.foldl_nil]
    unfold Server.rstep
    simp only [if_pos hdd, hfold, hd, hRT]
    rw [if_pos hm, if_pos hds]
    simp [Server.updR]

/-- Claim C8 counterexample: 1Server.py's resolve_update never checks
the sender against the configured outputs.  With no configured output
matching sender 7, the advertised entry for destination 9 keeps its raw
metric 4 (no link cost is added) and CASE 1 inserts it into the routing
table — the table is mutated, refuting the claim that resolve_update
rejects updates from unconfigured neighbors. -/
theorem claim_C8_cex :
    (Server.resolve_update 1 7 180 50 []
        [⟨9, 7, 4, false, false, 0, 0⟩] ((fun _ => none), false)).1 9
      = some ⟨9, 7, 4, true, false, 50, 0⟩ := rfl

theorem claim_C8_witness :
    (Router.process_update 1 [(5000, 3, 2)] 5 7 [(9, 4)] (fun _ => none)
      = ((fun _ => none), false)) ∧
    ((Server.resolve_update 1 7 180 60 []
        [⟨11, 7, 3, false, false, 0, 0⟩] ((fun _ => none), false)).1 11
      = some ⟨11, 7, 3, true, false, 60, 0⟩) := by
  have h := claim_C8 1 5 7 [(5000, 3, 2)] [(9, 4)] (fun _ => none) [] 180 60 11
    ⟨11, 7, 3, false, false, 0, 0⟩ (fun _ => none) false
    (by decide) (by intro o ho; cases ho) (by rfl) (by decide) (by rfl) (by decide)
  exact ⟨h.1, h.2⟩

/-- Claim C10: the codec performs no validation of the command byte —
parsing succeeds for every command value (REQUEST = 1 and values outside
the protocol set alike) and returns it unchanged together with the
routes; a non-RESPONSE command is filtered only afterwards, in the
receive path of the event loop, which leaves the table untouched. -/
theorem claim_C10 (cmd rid selfId now : Nat) (outputs : List (Nat × Nat × Nat))
    (routes : List (Nat × Nat)) (T : Table)
    (hc : cmd < 256) (hr : rid < 65536)
    (hv : ∀ r ∈ routes, r.1 < 4294967296 ∧ r.2 ≤ INFINITY) :
    RIPPacket.parse (RIPPacket.create_header rid cmd
        ++ (routes.map fun r => RIPPacket.create_rte r.1 r.2).flatten)
      = some (cmd, 2, rid, routes) ∧
    (cmd ≠ 2 → Router.handle_packet selfId outputs now T
        (RIPPacket.create_header rid cmd
          ++ (routes.map fun r => RIPPacket.create_rte r.1 r.2).flatten) = (T, false)) := by
  have hp := RIPPacket.parse_header_rtes cmd rid routes hc hr hv
  refine ⟨hp, fun hcmd => ?_⟩
  simp [Router.handle_packet, hp, hcmd]

theorem claim_C10_witness :
    RIPPacket.parse (RIPPacket.create_header 7 1
        ++ ([((3 : Nat), (5 : Nat))].map fun r => RIPPacket.create_rte r.1 r.2).flatten)
      = some (1, 2, 7, [(3, 5)]) ∧
    Router.handle_packet 1 [] 0 (fun _ => none)
        (RIPPacket.create_header 7 1
          ++ ([((3 : Nat), (5 : Nat))].map fun r => RIPPacket.create_rte r.1 r.2).flatten)
      = ((fun _ => none), false) := by
  have h := claim_C10 1 7 1 0 [] [(3, 5)] (fun _ => none) (by norm_num) (by norm_num) (by decide)
  exact ⟨h.1, h.2 (by decide)⟩
